import Mathlib

/-!
Shallow embedding of the swaynoti notification daemon core
(notification lifecycle manager, DND gate, rule matcher, history store,
bus notify handler), translated from the Rust sources under src/.
Machine integers (u32, i32, i64) are modelled as Nat / Int; arithmetic
that could wrap is reduced modulo 2^32 where the source uses u32.
-/

namespace Swaynoti

/-- Urgency level, from src/notification/urgency.rs (repr u8: 0, 1, 2). -/
inductive Urgency
  | Low
  | Normal
  | Critical
deriving DecidableEq, Repr

/-- The u8 discriminant of an urgency value (Urgency as u8 in the source). -/
def Urgency.toU8 : Urgency → Nat
  | .Low => 0
  | .Normal => 1
  | .Critical => 2

/-- From u8: 0 is Low, 2 is Critical, anything else Normal
(impl From of u8 for Urgency in urgency.rs). -/
def Urgency.ofU8 (value : Nat) : Urgency :=
  if value = 0 then .Low else if value = 2 then .Critical else .Normal

/-- Display impl for Urgency in urgency.rs. -/
def Urgency.toDisplay : Urgency → String
  | .Low => "low"
  | .Normal => "normal"
  | .Critical => "critical"

/-- Raw image data from D-Bus, from src/notification/notification.rs. -/
structure ImageData where
  width : Int
  height : Int
  rowstride : Int
  has_alpha : Bool
  bits_per_sample : Int
  channels : Int
  data : List Nat
deriving DecidableEq, Repr

/-- Notification hints parsed from D-Bus, from src/notification/notification.rs
(the Default impl gives the default field values shown here). -/
structure NotificationHints where
  urgency : Urgency := .Normal
  category : Option String := none
  desktop_entry : Option String := none
  image_data : Option ImageData := none
  image_path : Option String := none
  sound_file : Option String := none
  sound_name : Option String := none
  suppress_sound : Bool := false
  transient : Bool := false
  x : Option Int := none
  y : Option Int := none
  action_icons : Bool := false
  value : Option Int := none
  resident : Bool := false
  inline_reply : Bool := false
deriving DecidableEq, Repr

/-- Core notification structure, from src/notification/notification.rs.
Timestamps are absolute times in milliseconds modelled as Int. -/
structure Notification where
  id : Nat
  app_name : String
  replaces_id : Nat
  app_icon : String
  summary : String
  body : String
  actions : List (String × String)
  hints : NotificationHints
  expire_timeout : Int
  expires_at : Option Int := none
  created_at : Int
  is_hovered : Bool := false
deriving DecidableEq, Repr

/-- Rust slice chunks with chunk size 2: full pairs, with a final
singleton chunk when the length is odd. -/
def chunks2 {α : Type} : List α → List (List α)
  | [] => []
  | [a] => [[a]]
  | a :: b :: rest => [a, b] :: chunks2 rest

/-- Action-list pairing performed in Notification::new
(notification.rs lines 58-68): chunks of 2, keeping only full pairs,
so a dangling final element is discarded. -/
def parseActions (actions : List String) : List (String × String) :=
  (chunks2 actions).filterMap fun chunk =>
    match chunk with
    | [a, b] => some (a, b)
    | _ => none

/-- Notification::new from src/notification/notification.rs: pairs up the
wire action list, leaves expires_at unset and is_hovered false. -/
def Notification.new (id : Nat) (appName : String) (replacesId : Nat)
    (appIcon summary body : String) (actions : List String)
    (hints : NotificationHints) (expireTimeout : Int) (now : Int) :
    Notification :=
  { id := id
    app_name := appName
    replaces_id := replacesId
    app_icon := appIcon
    summary := summary
    body := body
    actions := parseActions actions
    hints := hints
    expire_timeout := expireTimeout
    expires_at := none
    created_at := now
    is_hovered := false }

/-- Do Not Disturb state, from src/dnd/state.rs: two atomic booleans. -/
structure DndState where
  enabled : Bool := false
  manual : Bool := false
deriving DecidableEq, Repr

/-- DndState::new. -/
def DndState.init : DndState := {}

/-- DndState::is_enabled. -/
def DndState.isEnabled (s : DndState) : Bool := s.enabled

/-- DndState::enable: stores true into both enabled and manual. -/
def DndState.enable (_s : DndState) : DndState :=
  { enabled := true, manual := true }

/-- DndState::disable: stores false into both enabled and manual. -/
def DndState.disable (_s : DndState) : DndState :=
  { enabled := false, manual := false }

/-- DndState::toggle: loads current enabled, stores the negation into
enabled and also into manual. -/
def DndState.toggle (s : DndState) : DndState :=
  let current := s.enabled
  { enabled := !current, manual := !current }

/-- DndState::enable_scheduled: stores true into enabled only when
manual is false. -/
def DndState.enableScheduled (s : DndState) : DndState :=
  if s.manual then s else { s with enabled := true }

/-- DndState::disable_scheduled: stores false into enabled only when
manual is false. -/
def DndState.disableScheduled (s : DndState) : DndState :=
  if s.manual then s else { s with enabled := false }

/-- DndState::is_manual. -/
def DndState.isManual (s : DndState) : Bool := s.manual

/-- Sort order for active notifications, from src/config/schema.rs. -/
inductive SortOrder
  | NewestFirst
  | OldestFirst
  | UrgencyDescending
deriving DecidableEq, Repr

/-- The fields of GeneralConfig consumed by the lifecycle core
(src/config/schema.rs); defaults from its Default impl. -/
structure GeneralConfig where
  max_visible : Nat := 5
  sort_order : SortOrder := .NewestFirst
  markup : Bool := true
deriving DecidableEq, Repr

/-- Per-urgency default timeouts in milliseconds (src/config/schema.rs);
defaults from its Default impl (critical 0 = never). -/
structure TimeoutConfig where
  low : Int := 3000
  normal : Int := 5000
  critical : Int := 0
deriving DecidableEq, Repr

/-- History configuration fields consumed by the core
(src/config/schema.rs). -/
structure HistoryConfig where
  enabled : Bool := true
  max_entries : Nat := 100
deriving DecidableEq, Repr

/-- The slice of Config (src/config/schema.rs) that the lifecycle core
reads: general, timeouts and history sections. -/
structure Config where
  general : GeneralConfig := {}
  timeouts : TimeoutConfig := {}
  history : HistoryConfig := {}
deriving DecidableEq, Repr

/-- The configuration produced by Config::default. -/
def defaultConfig : Config := {}

/-- Reason for closing a notification, from src/notification/manager.rs
(FreeDesktop numeric codes via repr u32). -/
inductive CloseReason
  | Expired
  | Dismissed
  | CloseCall
  | Undefined
deriving DecidableEq, Repr

/-- The u32 wire code of a close reason (repr u32 in manager.rs:
Expired = 1, Dismissed = 2, CloseCall = 3, Undefined = 4). -/
def CloseReason.toU32 : CloseReason → Nat
  | .Expired => 1
  | .Dismissed => 2
  | .CloseCall => 3
  | .Undefined => 4

/-- Events sent to the UI thread, from src/notification/manager.rs. -/
inductive UiEvent
  | Show (n : Notification)
  | Update (id : Nat) (n : Notification)
  | Close (id : Nat)
  | Reposition
deriving DecidableEq, Repr

/-- Whether a UI event is a Show display event. -/
def UiEvent.isShow : UiEvent → Bool
  | .Show _ => true
  | _ => false

/-- Association-list model of the HashMap of active notifications:
membership test. -/
def mapContains (m : List (Nat × Notification)) (k : Nat) : Bool :=
  m.any fun p => p.1 = k

/-- Association-list model of HashMap::get. -/
def mapGet (m : List (Nat × Notification)) (k : Nat) : Option Notification :=
  (m.find? fun p => p.1 = k).map Prod.snd

/-- Association-list model of HashMap::insert: replace the binding when
the key is present, otherwise add a new binding. -/
def mapInsert (m : List (Nat × Notification)) (k : Nat) (v : Notification) :
    List (Nat × Notification) :=
  if mapContains m k then
    m.map fun p => if p.1 = k then (k, v) else p
  else
    (k, v) :: m

/-- Association-list model of HashMap::remove. -/
def mapRemove (m : List (Nat × Notification)) (k : Nat) :
    List (Nat × Notification) :=
  m.filter fun p => p.1 ≠ k

/-- State owned by NotificationManager (src/notification/manager.rs):
active notifications, display order, and the next-id counter
(AtomicU32 initialised to 1). -/
structure ManagerState where
  notifications : List (Nat × Notification) := []
  display_order : List Nat := []
  next_id : Nat := 1
deriving DecidableEq, Repr

/-- NotificationManager::generate_id: fetch_add on the u32 counter
returns the current value and increments it (wrapping modulo 2^32). -/
def generateId (s : ManagerState) : Nat × ManagerState :=
  (s.next_id % 2 ^ 32, { s with next_id := (s.next_id + 1) % 2 ^ 32 })

/-- NotificationManager::calculate_timeout (manager.rs lines 164-183):
0 means never, positive is used as given, otherwise the per-urgency
configured default. -/
def calculateTimeout (cfg : Config) (n : Notification) : Int :=
  if n.expire_timeout = 0 then 0
  else if n.expire_timeout > 0 then n.expire_timeout
  else
    match n.hints.urgency with
    | .Low => cfg.timeouts.low
    | .Normal => cfg.timeouts.normal
    | .Critical => cfg.timeouts.critical

/-- Position chosen for a new id under SortOrder::UrgencyDescending
(manager.rs lines 139-145): first position whose existing entry has
strictly lower urgency (missing entries match), defaulting to the end. -/
def urgencyInsertPos (notifications : List (Nat × Notification))
    (n : Notification) (order : List Nat) : Nat :=
  (order.findIdx? fun existingId =>
    match mapGet notifications existingId with
    | some existing => n.hints.urgency.toU8 > existing.hints.urgency.toU8
    | none => true).getD order.length

/-- Result of NotificationManager::add_notification: assigned id, new
manager state, UI events sent on ui_sender, close signals sent on
close_sender during the call (there are none in the source), and the
expiry timer spawned by schedule_expiration, if any, as (id, timeout). -/
structure AddResult where
  id : Nat
  state : ManagerState
  events : List UiEvent
  sigs : List (Nat × CloseReason)
  timer : Option (Nat × Int)
deriving DecidableEq, Repr

/-- NotificationManager::add_notification (manager.rs lines 93-161):
resolve the id (reuse replaces_id when live, else allocate), compute the
timeout and set expires_at when positive, insert into the map, emit
Update on replacement or insert into display order and emit Show,
and spawn an expiry timer when the timeout is positive. -/
def addNotification (cfg : Config) (now : Int) (n0 : Notification)
    (s : ManagerState) : AddResult :=
  let idState : Nat × ManagerState :=
    if n0.replaces_id > 0 then
      if mapContains s.notifications n0.replaces_id then
        (n0.replaces_id, s)
      else
        generateId s
    else
      generateId s
  let id := idState.1
  let s1 := idState.2
  let n1 := { n0 with id := id }
  let timeout := calculateTimeout cfg n1
  let n2 :=
    if timeout > 0 then { n1 with expires_at := some (now + timeout) } else n1
  let isReplacement := mapContains s1.notifications id
  let s2 := { s1 with notifications := mapInsert s1.notifications id n2 }
  let timer : Option (Nat × Int) :=
    if timeout > 0 then some (id, timeout) else none
  if isReplacement then
    { id := id, state := s2, events := [UiEvent.Update id n2], sigs := [],
      timer := timer }
  else
    let pos :=
      match cfg.general.sort_order with
      | .NewestFirst => 0
      | .OldestFirst => s2.display_order.length
      | .UrgencyDescending =>
          urgencyInsertPos s2.notifications n2 s2.display_order
    let s3 := { s2 with display_order := s2.display_order.insertIdx pos id }
    { id := id, state := s3, events := [UiEvent.Show n2], sigs := [],
      timer := timer }

/-- The body of the task spawned by schedule_expiration (manager.rs
lines 191-199), run after the sleep elapses: it sends Close(id) on the
UI channel and (id, Expired) on the close channel unconditionally,
without checking the map or the hover flag and without mutating state. -/
def expiryTaskEvents (id : Nat) : List UiEvent × List (Nat × CloseReason) :=
  ([UiEvent.Close id], [(id, CloseReason.Expired)])

/-- NotificationManager::close_notification (manager.rs lines 203-219):
remove the id from the map; when it existed, drop it from the display
order and emit Close plus a close signal with the given reason. -/
def closeNotification (id : Nat) (reason : CloseReason) (s : ManagerState) :
    ManagerState × List UiEvent × List (Nat × CloseReason) :=
  let existed := mapContains s.notifications id
  if existed then
    let s1 := { s with
      notifications := mapRemove s.notifications id,
      display_order := s.display_order.filter fun x => x ≠ id }
    (s1, [UiEvent.Close id], [(id, reason)])
  else
    (s, [], [])

/-- NotificationManager::get_notification. -/
def getNotification (id : Nat) (s : ManagerState) : Option Notification :=
  mapGet s.notifications id

/-- NotificationManager::get_visible_notifications: the first
max_visible ids of the display order, resolved through the map. -/
def getVisibleNotifications (cfg : Config) (s : ManagerState) :
    List Notification :=
  (s.display_order.take cfg.general.max_visible).filterMap fun id =>
    mapGet s.notifications id

/-- NotificationManager::count: size of the active-notification map. -/
def managerCount (s : ManagerState) : Nat :=
  s.notifications.length

/-- NotificationManager::set_hovered: update the is_hovered flag of the
entry when present. -/
def setHovered (id : Nat) (hovered : Bool) (s : ManagerState) :
    ManagerState :=
  { s with notifications := s.notifications.map fun p =>
      if p.1 = id then (p.1, { p.2 with is_hovered := hovered }) else p }

/-- A history record, from src/history/mod.rs and the row schema of
src/history/store.rs. -/
structure HistoryEntry where
  id : Nat
  app_name : String
  summary : String
  body : String
  icon : Option String
  urgency : String
  timestamp : Int
  actions : List String
  dismissed : Bool
  expired : Bool
deriving DecidableEq, Repr

/-- The action keys recorded by the bus Notify handler
(src/dbus/interface.rs lines 219-222): chunks of 2 of the raw wire
list, taking the first element of each chunk, so a dangling final
element of an odd-length list is kept. -/
def historyActionKeys (actions : List String) : List String :=
  (chunks2 actions).filterMap List.head?

/-- Daemon-level state: the manager state, the DND gate (created in
main.rs alongside the manager; the notify path never reads it), the
multiset of expiry timer tasks spawned and not yet fired, and the
history rows written so far. -/
structure DaemonState where
  mgr : ManagerState := {}
  dnd : DndState := {}
  timers : List (Nat × Int) := []
  historyWrites : List HistoryEntry := []
deriving DecidableEq, Repr

/-- The fresh daemon state built in main.rs. -/
def initDaemon : DaemonState := {}

/-- Result of the bus Notify method: the returned id, the new daemon
state and the UI events emitted. -/
structure NotifyResult where
  id : Nat
  state : DaemonState
  events : List UiEvent
deriving DecidableEq, Repr

/-- NotificationServer::notify (src/dbus/interface.rs lines 172-233):
build the Notification via Notification::new, hand it to the manager,
then, when the transient hint is false, append a history entry whose
action list is the chunked key projection of the raw wire actions.
The DND gate is not consulted anywhere on this path. -/
def notifyHandler (cfg : Config) (now : Int) (appName : String)
    (replacesId : Nat) (appIcon summary body : String)
    (actions : List String) (hints : NotificationHints)
    (expireTimeout : Int) (d : DaemonState) : NotifyResult :=
  let n := Notification.new 0 appName replacesId appIcon summary body
    actions hints expireTimeout now
  let r := addNotification cfg now n d.mgr
  let hist :=
    if !hints.transient then
      d.historyWrites ++
        [{ id := r.id
           app_name := appName
           summary := summary
           body := body
           icon := if appIcon = "" then none else some appIcon
           urgency := hints.urgency.toDisplay
           timestamp := now
           actions := historyActionKeys actions
           dismissed := false
           expired := false }]
    else
      d.historyWrites
  { id := r.id
    state := { d with
      mgr := r.state
      timers := d.timers ++ r.timer.toList
      historyWrites := hist }
    events := r.events }

/-- Commands driving the daemon: a bus Notify call, a close request
(bus CloseNotification uses reason CloseCall, a socket or presenter
dismiss uses reason Dismissed, per interface.rs, ipc/handler.rs and
main.rs), the completion of a spawned expiry timer task, a presenter
hover transition, and the DND socket commands. -/
inductive Cmd
  | notify (now : Int) (appName : String) (replacesId : Nat)
      (appIcon summary body : String) (actions : List String)
      (hints : NotificationHints) (expireTimeout : Int)
  | closeById (id : Nat) (reason : CloseReason)
  | fire (id : Nat)
  | hover (id : Nat) (b : Bool)
  | enableDnd
  | disableDnd
  | toggleDnd
deriving Repr

/-- Observable outputs accumulated while running commands: UI events,
close signals placed on the close channel, and the ids returned by
Notify calls. -/
structure Trace where
  ui : List UiEvent := []
  sigs : List (Nat × CloseReason) := []
  replies : List Nat := []
deriving DecidableEq, Repr

/-- Remove the first timer task with the given id from the pending
list (that task has now run; each spawned task fires once). -/
def removeTimer (id : Nat) : List (Nat × Int) → List (Nat × Int)
  | [] => []
  | t :: rest => if t.1 = id then rest else t :: removeTimer id rest

/-- One daemon step. fire id models the elapse of the sleep inside a
task spawned by schedule_expiration: per the source it emits Close(id)
and (id, Expired) unconditionally and touches no manager state. -/
def step (cfg : Config) (d : DaemonState) : Cmd → DaemonState × Trace
  | .notify now appName replacesId appIcon summary body actions hints
      expireTimeout =>
    let r := notifyHandler cfg now appName replacesId appIcon summary body
      actions hints expireTimeout d
    (r.state, { ui := r.events, sigs := [], replies := [r.id] })
  | .closeById id reason =>
    let r := closeNotification id reason d.mgr
    ({ d with mgr := r.1 }, { ui := r.2.1, sigs := r.2.2, replies := [] })
  | .fire id =>
    if d.timers.any (fun t => t.1 = id) then
      let ev := expiryTaskEvents id
      ({ d with timers := removeTimer id d.timers },
        { ui := ev.1, sigs := ev.2, replies := [] })
    else
      (d, {})
  | .hover id b =>
    ({ d with mgr := setHovered id b d.mgr }, {})
  | .enableDnd => ({ d with dnd := d.dnd.enable }, {})
  | .disableDnd => ({ d with dnd := d.dnd.disable }, {})
  | .toggleDnd => ({ d with dnd := d.dnd.toggle }, {})

/-- Concatenation of traces. -/
def Trace.append (a b : Trace) : Trace :=
  { ui := a.ui ++ b.ui, sigs := a.sigs ++ b.sigs,
    replies := a.replies ++ b.replies }

/-- Run a command list from a daemon state, accumulating the trace. -/
def run (cfg : Config) (d : DaemonState) : List Cmd → DaemonState × Trace
  | [] => (d, {})
  | c :: rest =>
    let r := step cfg d c
    let r2 := run cfg r.1 rest
    (r2.1, r.2.append r2.2)

/-- Rule match criteria, from src/config/schema.rs. -/
structure RuleCriteria where
  app_name : Option String := none
  summary : Option String := none
  body : Option String := none
  urgency : Option String := none
  category : Option String := none
deriving DecidableEq, Repr

/-- Screen anchor, from src/config/schema.rs. -/
inductive Anchor
  | TopLeft
  | TopCenter
  | TopRight
  | BottomLeft
  | BottomCenter
  | BottomRight
deriving DecidableEq, Repr

/-- Rule actions, from src/config/schema.rs. -/
structure RuleActions where
  timeout : Option Int := none
  urgency : Option String := none
  anchor : Option Anchor := none
  skip_history : Option Bool := none
  skip_sound : Option Bool := none
  css_class : Option String := none
deriving DecidableEq, Repr

/-- An application rule, from src/config/schema.rs. -/
structure AppRule where
  criteria : RuleCriteria
  actions : RuleActions := {}
deriving DecidableEq, Repr

/-- RuleMatcher::matches_pattern (src/rules/matcher.rs lines 79-87).
Regex compilation and matching are abstracted by the oracle compile:
compile p = some m means Regex::new(p) succeeded and m is its is_match
predicate; compile p = none means compilation failed, in which case the
source falls back to exact string equality. -/
def matchesPattern (compile : String → Option (String → Bool))
    (pattern value : String) : Bool :=
  match compile pattern with
  | some isMatch => isMatch value
  | none => pattern == value

/-- RuleMatcher::matches (src/rules/matcher.rs lines 29-76): every
populated criterion must match; app_name, summary and body through
matches_pattern; urgency as a case-insensitive literal where unknown
words match everything; category through matches_pattern against the
notification category, failing when the notification has none. -/
def criteriaMatches (compile : String → Option (String → Bool))
    (criteria : RuleCriteria) (n : Notification) : Bool :=
  (match criteria.app_name with
   | some pattern => matchesPattern compile pattern n.app_name
   | none => true) &&
  (match criteria.summary with
   | some pattern => matchesPattern compile pattern n.summary
   | none => true) &&
  (match criteria.body with
   | some pattern => matchesPattern compile pattern n.body
   | none => true) &&
  (match criteria.urgency with
   | some urgencyStr =>
     match urgencyStr.toLower with
     | "low" => n.hints.urgency == Urgency.Low
     | "normal" => n.hints.urgency == Urgency.Normal
     | "critical" => n.hints.urgency == Urgency.Critical
     | _ => true
   | none => true) &&
  (match criteria.category with
   | some category =>
     match n.hints.category with
     | some notifCategory => matchesPattern compile category notifCategory
     | none => false
   | none => true)

/-- RuleMatcher::find_matching_rule (src/rules/matcher.rs lines 12-26):
scan the ordered rule list and return the first rule whose criteria
match. -/
def findMatchingRule (compile : String → Option (String → Bool))
    (n : Notification) : List AppRule → Option AppRule
  | [] => none
  | rule :: rest =>
    if criteriaMatches compile rule.criteria n then some rule
    else findMatchingRule compile n rest

/-- A row of the notifications table of src/history/store.rs: the
surrogate primary key (SQLite autoincrementing rowid) and the entry
payload. -/
structure Row where
  rowId : Nat
  entry : HistoryEntry
deriving DecidableEq, Repr

/-- Insert a row into a list sorted by timestamp descending, placing it
after existing rows with greater-or-equal timestamp (stable). -/
def insertDesc (r : Row) : List Row → List Row
  | [] => [r]
  | x :: xs =>
    if x.entry.timestamp ≥ r.entry.timestamp then x :: insertDesc r xs
    else r :: x :: xs

/-- ORDER BY timestamp DESC over the table, as a stable sort (ties keep
rowid insertion order). -/
def sortByTimestampDesc (rows : List Row) : List Row :=
  rows.foldr insertDesc []

/-- The history store of src/history/store.rs: the table rows in rowid
order, the next surrogate key, and the retention bound. -/
structure HistoryStore where
  rows : List Row := []
  nextRowId : Nat := 1
  maxEntries : Nat
deriving DecidableEq, Repr

/-- HistoryStore::new with an empty database file. -/
def HistoryStore.empty (maxEntries : Nat) : HistoryStore :=
  { maxEntries := maxEntries }

/-- HistoryStore::cleanup (store.rs lines 249-258): delete every row
whose surrogate key is not among the most-recent maxEntries rows by
timestamp. -/
def HistoryStore.cleanup (s : HistoryStore) : HistoryStore :=
  let keepIds :=
    ((sortByTimestampDesc s.rows).take s.maxEntries).map Row.rowId
  { s with rows := s.rows.filter fun r => keepIds.contains r.rowId }

/-- HistoryStore::add (store.rs lines 82-109): INSERT the entry as a
new row with a fresh surrogate key, then run cleanup. -/
def HistoryStore.add (e : HistoryEntry) (s : HistoryStore) : HistoryStore :=
  let newRow : Row := { rowId := s.nextRowId, entry := e }
  HistoryStore.cleanup
    { s with rows := s.rows ++ [newRow], nextRowId := s.nextRowId + 1 }

/-- HistoryStore::count. -/
def HistoryStore.count (s : HistoryStore) : Nat :=
  s.rows.length

/-- Well-formedness of the store: surrogate keys are distinct (they are
an autoincrementing primary key) and below the next key. -/
def StoreWF (s : HistoryStore) : Prop :=
  (s.rows.map Row.rowId).Nodup ∧ ∀ r ∈ s.rows, r.rowId < s.nextRowId

/-- Claim C7 counterexample: DndState::disable stores false into the
manual flag, and DndState::toggle on an enabled state also clears it,
refuting the claim that enable, disable and toggle all set manual to
true. -/
theorem dnd_disable_toggle_clear_manual_counterexample :
    (DndState.disable { enabled := true, manual := true }).manual = false ∧
    (DndState.toggle { enabled := true, manual := true }).manual = false := by
  decide

/-- Claim C7 (amended): enable sets manual to true, disable sets manual
to false, toggle sets both flags to the negation of the current enabled
flag (so manual becomes true only when toggling on), and the scheduled
operations mutate enabled only when manual is false. -/
theorem dnd_manual_flag_semantics (s : DndState) :
    s.enable.manual = true ∧ s.enable.enabled = true ∧
    s.disable.manual = false ∧ s.disable.enabled = false ∧
    s.toggle.manual = (!s.enabled) ∧ s.toggle.enabled = (!s.enabled) ∧
    (s.manual = true → s.enableScheduled = s ∧ s.disableScheduled = s) ∧
    (s.manual = false →
      s.enableScheduled.enabled = true ∧ s.enableScheduled.manual = false ∧
      s.disableScheduled.enabled = false ∧
      s.disableScheduled.manual = false) := by
  obtain ⟨e, m⟩ := s
  cases e <;> cases m <;> decide

/-- Claim C1: with the DND gate enabled, a Notify call carrying default
hints (urgency Normal, below Critical; transient false) still returns
an id and writes a history entry, but - contrary to the claim - the
Show display event is emitted to the presenter and an expiry timer is
armed: the notify path never consults the DND state. -/
theorem notify_under_dnd_emits_show_and_arms_timer :
    (run defaultConfig initDaemon [Cmd.enableDnd]).1.dnd.isEnabled = true ∧
    ({} : NotificationHints).urgency.toU8 < Urgency.Critical.toU8 ∧
    ({} : NotificationHints).transient = false ∧
    (notifyHandler defaultConfig 0 "app" 0 "" "Hi" "" []
      ({} : NotificationHints) 5000
      (run defaultConfig initDaemon [Cmd.enableDnd]).1).id = 1 ∧
    (notifyHandler defaultConfig 0 "app" 0 "" "Hi" "" []
      ({} : NotificationHints) 5000
      (run defaultConfig initDaemon [Cmd.enableDnd]).1).events.any
        UiEvent.isShow = true ∧
    (notifyHandler defaultConfig 0 "app" 0 "" "Hi" "" []
      ({} : NotificationHints) 5000
      (run defaultConfig initDaemon [Cmd.enableDnd]).1).state.timers
        = [(1, 5000)] ∧
    (notifyHandler defaultConfig 0 "app" 0 "" "Hi" "" []
      ({} : NotificationHints) 5000
      (run defaultConfig initDaemon [Cmd.enableDnd]).1).state.historyWrites.length
        = 1 := by
  exact ⟨rfl, by decide, rfl, rfl, rfl, rfl, rfl⟩

/-- Claim C2: a notification that entered the registry can receive two
close signals: after Notify with a 500 ms timeout, a user dismissal
emits (1, Dismissed) and the still-armed expiry task later emits
(1, Expired) without checking that the id is gone, so the
exactly-one-close-signal claim fails (reason codes themselves are
1 for expiry and 2 for dismissal as claimed). -/
theorem dismiss_then_expiry_emits_two_close_signals :
    mapContains
      (run defaultConfig initDaemon
        [Cmd.notify 0 "app" 0 "" "Hello" "" [] {} 500]).1.mgr.notifications
      1 = true ∧
    (run defaultConfig initDaemon
      [Cmd.notify 0 "app" 0 "" "Hello" "" [] {} 500,
       Cmd.closeById 1 CloseReason.Dismissed,
       Cmd.fire 1]).2.sigs
      = [(1, CloseReason.Dismissed), (1, CloseReason.Expired)] ∧
    CloseReason.Expired.toU32 = 1 ∧
    CloseReason.Dismissed.toU32 = 2 ∧
    CloseReason.CloseCall.toU32 = 3 := by
  exact ⟨rfl, rfl, rfl, rfl, rfl⟩

/-- Claim C3: on a fresh daemon with the default configuration,
Notify("app", 0, "", "Hello", "", [], default hints, 500) returns id 1
and the expiry task emits the close signal (1, Expired) whose wire code
is 1; but the expiry path never removes the entry from the active map,
so the active count afterwards is 1, not 0 as claimed. -/
theorem basic_expiry_scenario_registry_count_stays_one :
    (run defaultConfig initDaemon
      [Cmd.notify 0 "app" 0 "" "Hello" "" [] {} 500, Cmd.fire 1]).2.replies
      = [1] ∧
    (run defaultConfig initDaemon
      [Cmd.notify 0 "app" 0 "" "Hello" "" [] {} 500, Cmd.fire 1]).2.sigs
      = [(1, CloseReason.Expired)] ∧
    CloseReason.Expired.toU32 = 1 ∧
    managerCount
      (run defaultConfig initDaemon
        [Cmd.notify 0 "app" 0 "" "Hello" "" [] {} 500, Cmd.fire 1]).1.mgr
      = 1 := by
  exact ⟨rfl, rfl, rfl, rfl⟩

/-- Claim C4: a notification whose is_hovered flag is true at its
nominal expiry still receives the Close event and the (1, Expired)
close signal when the timer task fires: the task checks neither
liveness nor the hover flag, so hovering does not defer expiry. -/
theorem hovered_notification_expiry_still_closes :
    ((getNotification 1
        (run defaultConfig initDaemon
          [Cmd.notify 0 "app" 0 "" "Hello" "" [] {} 500,
           Cmd.hover 1 true]).1.mgr).map fun n => n.is_hovered)
      = some true ∧
    (run defaultConfig initDaemon
      [Cmd.notify 0 "app" 0 "" "Hello" "" [] {} 500, Cmd.hover 1 true,
       Cmd.fire 1]).2.sigs
      = [(1, CloseReason.Expired)] ∧
    (run defaultConfig initDaemon
      [Cmd.notify 0 "app" 0 "" "Hello" "" [] {} 500, Cmd.hover 1 true,
       Cmd.fire 1]).2.ui.count (UiEvent.Close 1)
      = 1 := by
  exact ⟨rfl, rfl, rfl⟩

/-- Inserting over a present key does not change the size of the map. -/
theorem mapInsert_length_of_contains (m : List (Nat × Notification)) (k : Nat)
    (v : Notification) (h : mapContains m k = true) :
    (mapInsert m k v).length = m.length := by
  simp [mapInsert, h]

/-- Looking up a key after replacing its bindings yields the new value. -/
theorem mapGet_map_replace (m : List (Nat × Notification)) (k : Nat)
    (v : Notification) (h : mapContains m k = true) :
    mapGet (m.map fun p => if p.1 = k then (k, v) else p) k = some v := by
  induction m with
  | nil => simp [mapContains] at h
  | cons p rest ih =>
    by_cases hp : p.1 = k
    · simp [mapGet, hp]
    · have h2 : mapContains rest k = true := by
        simp [mapContains] at h ⊢
        rcases h with h | h
        · exact absurd h hp
        · exact h
      have := ih h2
      simp [mapGet, hp] at this ⊢
      simpa [List.find?] using this

/-- Looking up a key right after inserting it yields the inserted value. -/
theorem mapGet_mapInsert_self (m : List (Nat × Notification)) (k : Nat)
    (v : Notification) :
    mapGet (mapInsert m k v) k = some v := by
  by_cases h : mapContains m k = true
  · simp only [mapInsert, h, if_pos]
    exact mapGet_map_replace m k v h
  · simp [mapInsert, h, mapGet]

/-- Claim C5: a submission whose replaces_id is non-zero and live keeps
that id, leaves the registry size unchanged, sends the presenter
exactly one Update event (no Show), and emits no close signal during
the call. -/
theorem replacement_preserves_id_count_update_no_close (cfg : Config)
    (now : Int) (n : Notification) (s : ManagerState)
    (h1 : n.replaces_id ≠ 0)
    (h2 : mapContains s.notifications n.replaces_id = true) :
    (addNotification cfg now n s).id = n.replaces_id ∧
    managerCount (addNotification cfg now n s).state = managerCount s ∧
    (∃ m, (addNotification cfg now n s).events
      = [UiEvent.Update n.replaces_id m]) ∧
    (addNotification cfg now n s).sigs = [] := by
  have hpos : n.replaces_id > 0 := Nat.pos_of_ne_zero h1
  refine ⟨?_, ?_, ?_, ?_⟩ <;> unfold addNotification <;>
    simp only [hpos, if_pos, h2, if_true, managerCount] <;>
    first
    | rfl
    | exact mapInsert_length_of_contains s.notifications n.replaces_id _ h2
    | exact ⟨_, rfl⟩

/-- Claim C5 witness: in a registry holding id 1, submitting with
replaces_id 1 returns id 1, keeps the count, emits one Update and no
close signal. -/
theorem replacement_preserves_id_count_update_no_close_witness :
    (addNotification defaultConfig 5
        (Notification.new 0 "app" 1 "" "A2" "" [] {} 0 5)
        { notifications := [(1, Notification.new 1 "app" 0 "" "A" "" [] {} 0 0)],
          display_order := [1], next_id := 2 }).id
      = (Notification.new 0 "app" 1 "" "A2" "" [] {} 0 5).replaces_id ∧
    managerCount
      (addNotification defaultConfig 5
        (Notification.new 0 "app" 1 "" "A2" "" [] {} 0 5)
        { notifications := [(1, Notification.new 1 "app" 0 "" "A" "" [] {} 0 0)],
          display_order := [1], next_id := 2 }).state
      = managerCount
        { notifications := [(1, Notification.new 1 "app" 0 "" "A" "" [] {} 0 0)],
          display_order := [1], next_id := 2 } ∧
    (∃ m, (addNotification defaultConfig 5
        (Notification.new 0 "app" 1 "" "A2" "" [] {} 0 5)
        { notifications := [(1, Notification.new 1 "app" 0 "" "A" "" [] {} 0 0)],
          display_order := [1], next_id := 2 }).events
      = [UiEvent.Update (Notification.new 0 "app" 1 "" "A2" "" [] {} 0 5).replaces_id m]) ∧
    (addNotification defaultConfig 5
        (Notification.new 0 "app" 1 "" "A2" "" [] {} 0 5)
        { notifications := [(1, Notification.new 1 "app" 0 "" "A" "" [] {} 0 0)],
          display_order := [1], next_id := 2 }).sigs = [] :=
  replacement_preserves_id_count_update_no_close defaultConfig 5
    (Notification.new 0 "app" 1 "" "A2" "" [] {} 0 5)
    { notifications := [(1, Notification.new 1 "app" 0 "" "A" "" [] {} 0 0)],
      display_order := [1], next_id := 2 }
    (by decide) (by decide)

/-- Claim C6: the effective timeout is 0 when expire_timeout is 0, the
given value when positive, and the per-urgency configured default when
negative; the expiry timer is armed exactly when the resolved timeout
is positive, and the stored notification has expires_at equal to now
plus the timeout exactly in that case. -/
theorem timeout_resolution_and_expires_at (cfg : Config) (now : Int)
    (n : Notification) (s : ManagerState) (h : n.expires_at = none) :
    (n.expire_timeout = 0 → calculateTimeout cfg n = 0) ∧
    (n.expire_timeout > 0 → calculateTimeout cfg n = n.expire_timeout) ∧
    (n.expire_timeout < 0 →
      calculateTimeout cfg n
        = (match n.hints.urgency with
           | .Low => cfg.timeouts.low
           | .Normal => cfg.timeouts.normal
           | .Critical => cfg.timeouts.critical)) ∧
    ((addNotification cfg now n s).timer.isSome
      = decide (calculateTimeout cfg n > 0)) ∧
    ((getNotification (addNotification cfg now n s).id
        (addNotification cfg now n s).state).map (fun m => m.expires_at)
      = some (if calculateTimeout cfg n > 0
              then some (now + calculateTimeout cfg n) else none)) := by
  have hct : ∀ (i : Nat) (ea : Option Int),
      calculateTimeout cfg { n with id := i, expires_at := ea }
        = calculateTimeout cfg n := fun _ _ => rfl
  refine ⟨?_, ?_, ?_, ?_, ?_⟩
  · intro h0; simp [calculateTimeout, h0]
  · intro h0
    have hne : n.expire_timeout ≠ 0 := by omega
    simp [calculateTimeout, hne, h0]
  · intro h0
    have hne : n.expire_timeout ≠ 0 := by omega
    have hng : ¬ n.expire_timeout > 0 := by omega
    simp [calculateTimeout, hne, hng]
  · unfold addNotification
    by_cases hr : n.replaces_id > 0 <;>
      by_cases hc : mapContains s.notifications n.replaces_id = true <;>
      by_cases ht : calculateTimeout cfg n > 0 <;>
      simp [hr, hc, ht, generateId, hct, h] <;>
      (split <;> simp [ht])
  · unfold addNotification
    by_cases hr : n.replaces_id > 0 <;>
      by_cases hc : mapContains s.notifications n.replaces_id = true <;>
      by_cases ht : calculateTimeout cfg n > 0 <;>
      simp [hr, hc, ht, generateId, hct, getNotification,
        mapGet_mapInsert_self, h] <;>
      (split <;> simp [ht, getNotification, mapGet_mapInsert_self, h])

/-- Claim C6 witness: a fresh submission with expire_timeout minus one
and Normal urgency resolves to the configured normal default 5000, arms
the timer and sets expires_at to now plus 5000. -/
theorem timeout_resolution_and_expires_at_witness :
    ((Notification.new 0 "app" 0 "" "x" "" [] {} (-1) 0).expire_timeout = 0 →
      calculateTimeout defaultConfig
        (Notification.new 0 "app" 0 "" "x" "" [] {} (-1) 0) = 0) ∧
    ((Notification.new 0 "app" 0 "" "x" "" [] {} (-1) 0).expire_timeout > 0 →
      calculateTimeout defaultConfig
        (Notification.new 0 "app" 0 "" "x" "" [] {} (-1) 0)
        = (Notification.new 0 "app" 0 "" "x" "" [] {} (-1) 0).expire_timeout) ∧
    ((Notification.new 0 "app" 0 "" "x" "" [] {} (-1) 0).expire_timeout < 0 →
      calculateTimeout defaultConfig
        (Notification.new 0 "app" 0 "" "x" "" [] {} (-1) 0)
        = (match (Notification.new 0 "app" 0 "" "x" "" [] {} (-1) 0).hints.urgency with
           | .Low => defaultConfig.timeouts.low
           | .Normal => defaultConfig.timeouts.normal
           | .Critical => defaultConfig.timeouts.critical)) ∧
    ((addNotification defaultConfig 0
        (Notification.new 0 "app" 0 "" "x" "" [] {} (-1) 0)
        ({} : ManagerState)).timer.isSome
      = decide (calculateTimeout defaultConfig
          (Notification.new 0 "app" 0 "" "x" "" [] {} (-1) 0) > 0)) ∧
    ((getNotification
        (addNotification defaultConfig 0
          (Notification.new 0 "app" 0 "" "x" "" [] {} (-1) 0)
          ({} : ManagerState)).id
        (addNotification defaultConfig 0
          (Notification.new 0 "app" 0 "" "x" "" [] {} (-1) 0)
          ({} : ManagerState)).state).map (fun m => m.expires_at)
      = some (if calculateTimeout defaultConfig
                  (Notification.new 0 "app" 0 "" "x" "" [] {} (-1) 0) > 0
              then some (0 + calculateTimeout defaultConfig
                (Notification.new 0 "app" 0 "" "x" "" [] {} (-1) 0))
              else none)) :=
  timeout_resolution_and_expires_at defaultConfig 0
    (Notification.new 0 "app" 0 "" "x" "" [] {} (-1) 0)
    ({} : ManagerState) rfl

/-- find_matching_rule returns none exactly when no rule matches. -/
theorem findMatchingRule_none_iff (compile : String → Option (String → Bool))
    (n : Notification) (rules : List AppRule) :
    findMatchingRule compile n rules = none ↔
      ∀ q ∈ rules, criteriaMatches compile q.criteria n = false := by
  induction rules with
  | nil => simp [findMatchingRule]
  | cons a rest ih =>
    by_cases h : criteriaMatches compile a.criteria n = true
    · simp [findMatchingRule, h]
    · have hf : criteriaMatches compile a.criteria n = false :=
        Bool.eq_false_iff.mpr h
      simp [findMatchingRule, hf, ih]

/-- find_matching_rule returns some r exactly when r is the first
matching rule of the list. -/
theorem findMatchingRule_some_iff (compile : String → Option (String → Bool))
    (n : Notification) (rules : List AppRule) (r : AppRule) :
    findMatchingRule compile n rules = some r ↔
      ∃ pre post, rules = pre ++ r :: post ∧
        criteriaMatches compile r.criteria n = true ∧
        ∀ q ∈ pre, criteriaMatches compile q.criteria n = false := by
  induction rules with
  | nil =>
    simp only [findMatchingRule]
    constructor
    · intro hs; cases hs
    · rintro ⟨pre, post, heq, -, -⟩
      exact absurd heq.symm (List.append_ne_nil_of_right_ne_nil pre (by simp))
  | cons a rest ih =>
    by_cases h : criteriaMatches compile a.criteria n = true
    · constructor
      · intro hs
        have har : a = r := by
          have : some a = some r := by simpa [findMatchingRule, h] using hs
          exact Option.some.inj this
        subst har
        exact ⟨[], rest, rfl, h, by simp⟩
      · rintro ⟨pre, post, heq, hr, hpre⟩
        cases pre with
        | nil =>
          have : a = r := by simpa using congrArg (fun l => l.head?) heq
          subst this
          simp [findMatchingRule, h]
        | cons b pre2 =>
          have hab : a = b := by simpa using congrArg (fun l => l.head?) heq
          have hb : criteriaMatches compile b.criteria n = false :=
            hpre b (by simp)
          rw [hab] at h
          simp [hb] at h
    · have hf : criteriaMatches compile a.criteria n = false :=
        Bool.eq_false_iff.mpr h
      constructor
      · intro hs
        have hs2 : findMatchingRule compile n rest = some r := by
          simpa [findMatchingRule, hf] using hs
        obtain ⟨pre, post, heq, hr, hpre⟩ := ih.mp hs2
        refine ⟨a :: pre, post, by simp [heq], hr, ?_⟩
        intro q hq
        rcases List.mem_cons.mp hq with hq | hq
        · subst hq; exact hf
        · exact hpre q hq
      · rintro ⟨pre, post, heq, hr, hpre⟩
        cases pre with
        | nil =>
          have : a = r := by simpa using congrArg (fun l => l.head?) heq
          subst this
          simp [h] at hr
        | cons b pre2 =>
          have hrest : rest = pre2 ++ r :: post := by
            simpa using congrArg List.tail heq
          have : findMatchingRule compile n rest = some r :=
            ih.mpr ⟨pre2, post, hrest, hr, fun q hq => hpre q (by simp [hq])⟩
          simpa [findMatchingRule, hf] using this

/-- Claim C8: the rule engine returns the first rule of the ordered
list whose every populated criterion matches (and none exactly when no
rule matches), where a string criterion is tested through the compiled
regular expression when compilation succeeds and falls back to exact
string equality when compilation fails. -/
theorem rule_engine_first_match_semantics
    (compile : String → Option (String → Bool)) (n : Notification)
    (rules : List AppRule) (r : AppRule) :
    (findMatchingRule compile n rules = some r ↔
      ∃ pre post, rules = pre ++ r :: post ∧
        criteriaMatches compile r.criteria n = true ∧
        ∀ q ∈ pre, criteriaMatches compile q.criteria n = false) ∧
    (findMatchingRule compile n rules = none ↔
      ∀ q ∈ rules, criteriaMatches compile q.criteria n = false) ∧
    (∀ p v m, compile p = some m → matchesPattern compile p v = m v) ∧
    (∀ p v, compile p = none → matchesPattern compile p v = (p == v)) := by
  refine ⟨findMatchingRule_some_iff compile n rules r,
    findMatchingRule_none_iff compile n rules, ?_, ?_⟩
  · intro p v m hm; simp [matchesPattern, hm]
  · intro p v hm; simp [matchesPattern, hm]

/-- On an odd-length wire list, Notification::new keeps the even-prefix
pairs and drops the dangling element, while the history key projection
keeps it. -/
theorem parseActions_historyKeys_odd (k : Nat) : ∀ (l : List String),
    l.length = 2 * k + 1 →
    parseActions l = parseActions (l.take (2 * k)) ∧
    (parseActions l).length = k ∧
    historyActionKeys l = (parseActions l).map Prod.fst ++ l.drop (2 * k) := by
  induction k with
  | zero =>
    intro l h
    match l, h with
    | [a], _ => simp [parseActions, chunks2, historyActionKeys]
  | succ k ih =>
    intro l h
    match l with
    | a :: b :: rest =>
      have hrest : rest.length = 2 * k + 1 := by
        simp [List.length_cons] at h; omega
      obtain ⟨ih1, ih2, ih3⟩ := ih rest hrest
      have h2 : 2 * (k + 1) = 2 * k + 1 + 1 := by omega
      refine ⟨?_, ?_, ?_⟩
      · simp [parseActions, chunks2, h2, List.take_succ_cons]
        simpa [parseActions, chunks2] using ih1
      · simp [parseActions, chunks2]
        simpa [parseActions] using ih2
      · simp [historyActionKeys, chunks2, h2, List.drop_succ_cons,
          parseActions]
        simpa [historyActionKeys, parseActions] using ih3

/-- Claim C10: for a wire actions list of odd length 2k+1, the parsed
notification carries exactly the first k (key, label) pairs (the
dangling final element is discarded by Notification::new), while the
history entry written by the bus Notify handler records the chunked
key projection, which keeps the dangling final element. -/
theorem odd_actions_parse_vs_history_keys (l : List String) (k : Nat)
    (h : l.length = 2 * k + 1) :
    parseActions l = parseActions (l.take (2 * k)) ∧
    (parseActions l).length = k ∧
    historyActionKeys l = (parseActions l).map Prod.fst ++ l.drop (2 * k) ∧
    (∀ (appName : String) (rid : Nat) (icon summ bod : String)
       (hints : NotificationHints) (et now : Int),
       (Notification.new 0 appName rid icon summ bod l hints et now).actions
         = parseActions l) ∧
    (∀ (cfg : Config) (now : Int) (appName icon summ bod : String)
       (hints : NotificationHints) (et : Int) (d : DaemonState),
       hints.transient = false →
       ((notifyHandler cfg now appName 0 icon summ bod l hints et
          d).state.historyWrites.getLast?).map (fun e => e.actions)
         = some (historyActionKeys l)) := by
  obtain ⟨h1, h2, h3⟩ := parseActions_historyKeys_odd k l h
  refine ⟨h1, h2, h3, fun _ _ _ _ _ _ _ _ => rfl, ?_⟩
  intro cfg now appName icon summ bod hints et d ht
  simp [notifyHandler, ht]

/-- Claim C10 witness: the three-element wire list a, A, b parses to
the single pair (a, A) while the recorded history keys are a then b,
keeping the dangling element b. -/
theorem odd_actions_parse_vs_history_keys_witness :
    parseActions ["a", "A", "b"]
      = parseActions (["a", "A", "b"].take (2 * 1)) ∧
    (parseActions ["a", "A", "b"]).length = 1 ∧
    historyActionKeys ["a", "A", "b"]
      = (parseActions ["a", "A", "b"]).map Prod.fst
        ++ ["a", "A", "b"].drop (2 * 1) ∧
    (∀ (appName : String) (rid : Nat) (icon summ bod : String)
       (hints : NotificationHints) (et now : Int),
       (Notification.new 0 appName rid icon summ bod ["a", "A", "b"] hints
         et now).actions = parseActions ["a", "A", "b"]) ∧
    (∀ (cfg : Config) (now : Int) (appName icon summ bod : String)
       (hints : NotificationHints) (et : Int) (d : DaemonState),
       hints.transient = false →
       ((notifyHandler cfg now appName 0 icon summ bod ["a", "A", "b"]
          hints et d).state.historyWrites.getLast?).map (fun e => e.actions)
         = some (historyActionKeys ["a", "A", "b"])) :=
  odd_actions_parse_vs_history_keys ["a", "A", "b"] 1 (by decide)

/-- Inserting into a descending-sorted list permutes consing. -/
theorem insertDesc_perm (r : Row) (l : List Row) :
    (insertDesc r l).Perm (r :: l) := by
  induction l with
  | nil => simp [insertDesc]
  | cons x xs ih =>
    by_cases h : x.entry.timestamp ≥ r.entry.timestamp
    · simp only [insertDesc, h, if_pos]
      exact (List.Perm.cons x ih).trans (List.Perm.swap r x xs)
    · simp [insertDesc, h]

/-- The timestamp sort is a permutation of the table. -/
theorem sortByTimestampDesc_perm (l : List Row) :
    (sortByTimestampDesc l).Perm l := by
  induction l with
  | nil => simp [sortByTimestampDesc]
  | cons x xs ih =>
    have : sortByTimestampDesc (x :: xs)
        = insertDesc x (sortByTimestampDesc xs) := rfl
    rw [this]
    exact (insertDesc_perm x (sortByTimestampDesc xs)).trans
      (List.Perm.cons x ih)

/-- A duplicate-free list contained in another is no longer than it. -/
theorem length_le_of_nodup_subset (l l2 : List Nat) (hn : l.Nodup)
    (hs : l ⊆ l2) : l.length ≤ l2.length := by
  have h1 : l.toFinset.card = l.length := List.toFinset_card_of_nodup hn
  have h2 : l.toFinset ⊆ l2.toFinset := by
    intro x hx
    exact List.mem_toFinset.mpr (hs (List.mem_toFinset.mp hx))
  have h3 : l2.toFinset.card ≤ l2.length := l2.toFinset_card_le
  have h4 : l.toFinset.card ≤ l2.toFinset.card := Finset.card_le_card h2
  omega

/-- Cleanup leaves at most maxEntries rows when surrogate keys are
distinct. -/
theorem cleanup_count_le (s : HistoryStore)
    (hn : (s.rows.map Row.rowId).Nodup) :
    (HistoryStore.cleanup s).count ≤ s.maxEntries := by
  unfold HistoryStore.cleanup HistoryStore.count
  set keepIds :=
    ((sortByTimestampDesc s.rows).take s.maxEntries).map Row.rowId with hkeep
  show (s.rows.filter fun r => keepIds.contains r.rowId).length ≤ s.maxEntries
  have hklen : keepIds.length ≤ s.maxEntries := by
    rw [hkeep]
    simp [List.length_take]
  have hfil :
      ((s.rows.filter fun r => keepIds.contains r.rowId).map Row.rowId).Nodup :=
    List.Nodup.sublist (List.Sublist.map Row.rowId
      (List.filter_sublist s.rows)) hn
  have hsub :
      ((s.rows.filter fun r => keepIds.contains r.rowId).map Row.rowId)
        ⊆ keepIds := by
    intro x hx
    obtain ⟨r, hr, hxr⟩ := List.mem_map.mp hx
    have := List.of_mem_filter hr
    subst hxr
    exact List.mem_of_elem_eq_true this
  have := length_le_of_nodup_subset _ _ hfil hsub
  simp only [List.length_map] at this
  omega

/-- Cleanup preserves store well-formedness. -/
theorem cleanup_StoreWF (s : HistoryStore) (h : StoreWF s) :
    StoreWF (HistoryStore.cleanup s) := by
  obtain ⟨hn, hb⟩ := h
  constructor
  · exact List.Nodup.sublist (List.Sublist.map Row.rowId
      (List.filter_sublist s.rows)) hn
  · intro r hr
    exact hb r (List.mem_of_mem_filter hr)

/-- The freshly inserted row keeps the surrogate keys duplicate-free. -/
theorem add_intermediate_nodup (s : HistoryStore) (e : HistoryEntry)
    (h : StoreWF s) :
    ((s.rows ++ [({ rowId := s.nextRowId, entry := e } : Row)]).map
      Row.rowId).Nodup := by
  obtain ⟨hn, hb⟩ := h
  rw [List.map_append]
  rw [List.nodup_append]
  refine ⟨hn, by simp, ?_⟩
  intro x hx
  obtain ⟨r, hr, hxr⟩ := List.mem_map.mp hx
  subst hxr
  simp only [List.map_cons, List.map_nil, List.mem_singleton]
  intro hcontra
  exact absurd hcontra (Nat.ne_of_lt (hb r hr))

/-- Adding an entry preserves store well-formedness. -/
theorem add_StoreWF (s : HistoryStore) (e : HistoryEntry) (h : StoreWF s) :
    StoreWF (HistoryStore.add e s) := by
  apply cleanup_StoreWF
  refine ⟨add_intermediate_nodup s e h, ?_⟩
  intro r hr
  simp only [List.mem_append, List.mem_singleton] at hr
  rcases hr with hr | hr
  · exact Nat.lt_succ_of_lt (h.2 r hr)
  · subst hr; exact Nat.lt_succ_self _

/-- Adding an entry leaves at most maxEntries rows. -/
theorem add_count_le (s : HistoryStore) (e : HistoryEntry) (h : StoreWF s) :
    (HistoryStore.add e s).count ≤ s.maxEntries := by
  unfold HistoryStore.add
  exact cleanup_count_le _ (add_intermediate_nodup s e h)

/-- After an add, the surviving rows are exactly the first maxEntries
of the timestamp-descending sort of the table including the new row. -/
theorem add_rows_mem_iff (t : HistoryStore) (e : HistoryEntry)
    (hw : StoreWF t) (r : Row) :
    r ∈ (HistoryStore.add e t).rows ↔
      r ∈ (sortByTimestampDesc
        (t.rows ++ [({ rowId := t.nextRowId, entry := e } : Row)])).take
        t.maxEntries := by
  have hn := add_intermediate_nodup t e hw
  set rows2 := t.rows ++ [({ rowId := t.nextRowId, entry := e } : Row)]
    with hrows2
  have hperm : (sortByTimestampDesc rows2).Perm rows2 :=
    sortByTimestampDesc_perm rows2
  have htake : ∀ q, q ∈ (sortByTimestampDesc rows2).take t.maxEntries →
      q ∈ rows2 := by
    intro q hq
    exact hperm.mem_iff.mp (List.mem_of_mem_take hq)
  constructor
  · intro hr
    have hr2 : r ∈ rows2 := List.mem_of_mem_filter hr
    have hc := List.of_mem_filter hr
    have hcm : r.rowId ∈ ((sortByTimestampDesc rows2).take
        t.maxEntries).map Row.rowId := List.mem_of_elem_eq_true hc
    obtain ⟨q, hq, hqr⟩ := List.mem_map.mp hcm
    have hq2 : q ∈ rows2 := htake q hq
    have : q = r := List.inj_on_of_nodup_map hn hq2 hr2 hqr
    rwa [this] at hq
  · intro hr
    have hr2 : r ∈ rows2 := htake r hr
    refine List.mem_filter.mpr ⟨hr2, ?_⟩
    have : r.rowId ∈ ((sortByTimestampDesc rows2).take
        t.maxEntries).map Row.rowId := List.mem_map_of_mem Row.rowId hr
    exact List.elem_eq_true_of_mem this

/-- Well-formedness, the retention bound and the maxEntries field are
invariant under folding adds. -/
theorem foldl_add_invariant (es : List HistoryEntry) :
    ∀ (s : HistoryStore), StoreWF s → s.count ≤ s.maxEntries →
    StoreWF (es.foldl (fun st e => HistoryStore.add e st) s) ∧
    (es.foldl (fun st e => HistoryStore.add e st) s).maxEntries
      = s.maxEntries ∧
    (es.foldl (fun st e => HistoryStore.add e st) s).count
      ≤ s.maxEntries := by
  induction es with
  | nil => intro s hw hc; exact ⟨hw, rfl, hc⟩
  | cons e rest ih =>
    intro s hw hc
    have hw2 := add_StoreWF s e hw
    have hc2 := add_count_le s e hw
    have hme : (HistoryStore.add e s).maxEntries = s.maxEntries := rfl
    obtain ⟨h1, h2, h3⟩ :=
      ih (HistoryStore.add e s) hw2 (by rw [hme]; exact hc2)
    refine ⟨h1, ?_, ?_⟩
    · rw [List.foldl_cons, h2, hme]
    · rw [List.foldl_cons] at *
      rw [hme] at h3
      exact h3

/-- Claim C9: after any sequence of adds starting from an empty store,
count is at most max_entries; moreover the store stays well-formed, and
each add inserts its row and then retains exactly the rows among the
most-recent max_entries of the post-insert table by timestamp. -/
theorem history_bound_and_retention (max : Nat) (es : List HistoryEntry) :
    HistoryStore.count
      (es.foldl (fun st e => HistoryStore.add e st) (HistoryStore.empty max))
      ≤ max ∧
    StoreWF (es.foldl (fun st e => HistoryStore.add e st)
      (HistoryStore.empty max)) ∧
    (∀ (t : HistoryStore) (e : HistoryEntry), StoreWF t → ∀ r : Row,
      r ∈ (HistoryStore.add e t).rows ↔
        r ∈ (sortByTimestampDesc
          (t.rows ++ [({ rowId := t.nextRowId, entry := e } : Row)])).take
          t.maxEntries) := by
  have hw0 : StoreWF (HistoryStore.empty max) := by
    constructor
    · simp [HistoryStore.empty]
    · intro r hr; simp [HistoryStore.empty] at hr
  have hc1 : (HistoryStore.empty max).count
      ≤ (HistoryStore.empty max).maxEntries := by
    simp [HistoryStore.empty, HistoryStore.count]
  obtain ⟨h1, h2, h3⟩ :=
    foldl_add_invariant es (HistoryStore.empty max) hw0 hc1
  exact ⟨h3, h1, fun t e hw r => add_rows_mem_iff t e hw r⟩

end Swaynoti
